import Mathlib

/-!
Verification of the StoryHub backend: a shallow embedding of the story
metadata/content repository, the fork engine, the orphan reconciler and
the token validation layer, together with proofs of the stated
functional and error-handling properties.

Object identifiers (Mongo ObjectID values) are modelled as natural
numbers; the nil ObjectID is 0.  The two Mongo collections become two
lists inside a DB record, and each Go service method becomes a pure
function on that record.  Storage faults are out of the pure model
except where a claim is about a specific injected fault (the content
clone insert inside ForkStory), which is modelled by an explicit
Boolean fault flag.
-/

namespace StoryHub

/-- The nil Mongo ObjectID (primitive.NilObjectID). -/
def NilObjectID : Nat := 0

/-- data.StoryDetails: the story metadata record. -/
structure StoryDetails where
  id            : Nat
  title         : String
  genre         : String
  description   : String
  ownerID       : Nat
  collaborators : List Nat
  createdAt     : Nat
  updatedAt     : Nat
  forkedFrom    : Option Nat
deriving Repr, DecidableEq

/-- data.StoryContent: the story body record. -/
structure StoryContent where
  id      : Nat
  storyID : Nat
  content : String
deriving Repr, DecidableEq

/-- The two persisted collections of the storyhub database. -/
structure DB where
  storydetails : List StoryDetails
  storycontent : List StoryContent
deriving Repr, DecidableEq

/-- The distinct error outcomes of the database service methods
(each corresponds to one fmt.Errorf message in the Go code). -/
inductive Err where
  | errorFetchingStory
  | storyNotFound
  | alreadyForked
  | errorInsertingContent
deriving Repr, DecidableEq

/-- Mongo FindOne on storydetails with filter on the _id field. -/
def findStory (db : DB) (id : Nat) : Option StoryDetails :=
  db.storydetails.find? (fun s => s.id == id)

/-- Mongo FindOne on storycontent with filter on the story_id field. -/
def findContent (db : DB) (sid : Nat) : Option StoryContent :=
  db.storycontent.find? (fun c => c.storyID == sid)

/-- Mongo UpdateOne: apply f to the first element matching p. -/
def updateOne (p : α → Bool) (f : α → α) : List α → List α
  | [] => []
  | x :: xs => if p x then f x :: xs else x :: updateOne p f xs

/-- Mongo DeleteOne: remove the first element matching p. -/
def deleteOne (p : α → Bool) : List α → List α
  | [] => []
  | x :: xs => if p x then xs else x :: deleteOne p xs

/-- service.CreateStory: stamp both timestamps with the current time,
insert the metadata document and return the id assigned by storage. -/
def CreateStory (db : DB) (req : StoryDetails) (now newID : Nat) : Nat × DB :=
  let doc := { req with createdAt := now, updatedAt := now, id := newID }
  (newID, { db with storydetails := db.storydetails ++ [doc] })

/-- service.GetStoryDetails. -/
def GetStoryDetails (db : DB) (id : Nat) : Except Err StoryDetails :=
  match findStory db id with
  | some s => .ok s
  | none => .error .errorFetchingStory

/-- service.GetStoryContent: a missing metadata document is an error;
a missing content document yields an empty-body value instead. -/
def GetStoryContent (db : DB) (id : Nat) : Except Err StoryContent :=
  match findStory db id with
  | none => .error .storyNotFound
  | some _ =>
    match findContent db id with
    | some c => .ok c
    | none => .ok { id := NilObjectID, storyID := id, content := "" }

/-- service.EditStoryContent: check metadata, upsert the content
document, then touch the updated_at timestamp. -/
def EditStoryContent (db : DB) (storyID : Nat) (newContent : String) (now : Nat) :
    Except Err DB :=
  match findStory db storyID with
  | none => .error .storyNotFound
  | some _ =>
    let matched := db.storycontent.any (fun c => c.storyID == storyID)
    let newDoc : StoryContent := { id := NilObjectID, storyID := storyID, content := newContent }
    let content1 : List StoryContent :=
      if matched then
        updateOne (fun c => c.storyID == storyID) (fun c => { c with content := newContent }) db.storycontent
      else
        db.storycontent ++ [newDoc]
    let details1 : List StoryDetails :=
      updateOne (fun s => s.id == storyID) (fun s => { s with updatedAt := now }) db.storydetails
    .ok { storydetails := details1, storycontent := content1 }

/-- service.DeleteStory: delete the metadata document first, failing
when nothing matched; then delete the content document, where a zero
delete count is merely logged. -/
def DeleteStory (db : DB) (storyID : Nat) : Except Err DB :=
  if db.storydetails.any (fun s => s.id == storyID) then
    let db1 : DB := { db with storydetails := deleteOne (fun s => s.id == storyID) db.storydetails }
    let db2 : DB := { db1 with storycontent := deleteOne (fun c => c.storyID == storyID) db1.storycontent }
    .ok db2
  else
    .error .storyNotFound

/-- service.ForkStory: source lookup, duplicate-fork check, metadata
clone via CreateStory, then a content clone when the source body is
non-empty.  Like the Go function it returns the assigned ObjectID
together with an optional error; the contentInsertFails flag injects a
storage fault at the content-clone InsertOne. -/
def ForkStory (db : DB) (storyID userID now newID newContentID : Nat)
    (contentInsertFails : Bool) : (Nat × Option Err) × DB :=
  match GetStoryDetails db storyID with
  | .error _ => ((NilObjectID, some .storyNotFound), db)
  | .ok story =>
    match db.storydetails.find? (fun s => s.forkedFrom == some storyID && s.ownerID == userID) with
    | some _ => ((NilObjectID, some .alreadyForked), db)
    | none =>
      let forkedStory : StoryDetails :=
        { id := NilObjectID, title := story.title, genre := story.genre,
          description := story.description, ownerID := userID,
          collaborators := [], createdAt := now, updatedAt := now,
          forkedFrom := some story.id }
      let insertedAndDb := CreateStory db forkedStory now newID
      let insertedStoryID := insertedAndDb.1
      let db1 := insertedAndDb.2
      match GetStoryContent db1 storyID with
      | .error _ => ((NilObjectID, some .storyNotFound), db1)
      | .ok storyContent =>
        if storyContent.content ≠ "" then
          if contentInsertFails then
            ((insertedStoryID, some .errorInsertingContent), db1)
          else
            ((insertedStoryID, none),
             { db1 with storycontent := db1.storycontent ++
                 [{ id := newContentID, storyID := insertedStoryID, content := storyContent.content }] })
        else
          ((insertedStoryID, none), db1)

/-- service.DeleteAllStoriesByUser: collect the ids of the stories of
the owner, succeed at once when there are none, otherwise bulk-delete
the metadata and the associated content documents. -/
def DeleteAllStoriesByUser (db : DB) (userID : Nat) : Except Err DB :=
  let storyIDs := (db.storydetails.filter (fun s => s.ownerID == userID)).map (fun s => s.id)
  if storyIDs.isEmpty then
    .ok db
  else
    let details1 := db.storydetails.filter (fun s => !(s.ownerID == userID))
    let content1 := db.storycontent.filter (fun c => !(storyIDs.contains c.storyID))
    .ok { storydetails := details1, storycontent := content1 }

/-- The HTTP-level outcome of a handler, keeping only the status and
the payload relevant to the claims. -/
inductive HandlerResult where
  | created (storyID : Nat)
  | okMessage
  | badRequest (message : String)
  | notFound
  | unauthorized
  | conflict
  | internalError
deriving Repr, DecidableEq

/-- Server.EditStory handler: look up the story, decide authorization
(owner or exact-match collaborator), then edit the content. -/
def EditStoryHandler (db : DB) (userId storyId : Nat) (newContent : String) (now : Nat) :
    HandlerResult × DB :=
  match GetStoryDetails db storyId with
  | .error _ => (.notFound, db)
  | .ok story =>
    let isAuthorized : Bool :=
      if userId == story.ownerID then true
      else story.collaborators.contains userId
    if !isAuthorized then (.unauthorized, db)
    else
      match EditStoryContent db storyId newContent now with
      | .error _ => (.internalError, db)
      | .ok db1 => (.okMessage, db1)

/-- Server.DeleteStory handler: look up the story, require strict
ownership, then delete. -/
def DeleteStoryHandler (db : DB) (userId storyId : Nat) : HandlerResult × DB :=
  match GetStoryDetails db storyId with
  | .error _ => (.notFound, db)
  | .ok story =>
    if userId != story.ownerID then (.unauthorized, db)
    else
      match DeleteStory db storyId with
      | .error _ => (.internalError, db)
      | .ok db1 => (.okMessage, db1)

/-- Server.ForkStory handler: look up the story, reject forking one's
own story, then call the fork engine, mapping the duplicate-fork error
to the Conflict status. -/
def ForkStoryHandler (db : DB) (userId storyId now newID newContentID : Nat)
    (contentInsertFails : Bool) : HandlerResult × DB :=
  match GetStoryDetails db storyId with
  | .error _ => (.notFound, db)
  | .ok story =>
    if userId == story.ownerID then (.badRequest "Cannot fork your own story", db)
    else
      let forkResult := ForkStory db storyId userId now newID newContentID contentInsertFails
      let forkedStoryID := forkResult.1.1
      let db1 := forkResult.2
      match forkResult.1.2 with
      | some .alreadyForked => (.conflict, db1)
      | some _ => (.internalError, db1)
      | none =>
        if forkedStoryID == NilObjectID then (.internalError, db1)
        else (.created forkedStoryID, db1)

/-- The outcome of one identity-service lookup for an owner id: an
HTTP status code, or a transport failure. -/
inductive LookupResult where
  | status (code : Nat)
  | transportError
deriving Repr, DecidableEq

/-- Whether a lookup outcome is the definitive not-found signal
(HTTP 404). -/
def is404 : LookupResult → Bool
  | .status 404 => true
  | _ => false

/-- Mongo Distinct on the owner_id field of storydetails. -/
def distinctOwners (db : DB) : List Nat :=
  (db.storydetails.map (fun s => s.ownerID)).dedup

/-- The owners collected into the orphan set during one reconciliation
cycle: exactly those whose identity lookup returned HTTP 404. -/
def orphanedOwners (db : DB) (lookup : Nat → LookupResult) : List Nat :=
  (distinctOwners db).filter (fun o => is404 (lookup o))

/-- service.CleanupOrphanedStories: enumerate distinct owners, keep the
404-confirmed ones, then bulk-delete their stories and content and pull
their ids from every collaborator array. -/
def CleanupOrphanedStories (db : DB) (lookup : Nat → LookupResult) : DB :=
  let orphans := orphanedOwners db lookup
  if orphans.isEmpty then db
  else
    let orphanedStoryIDs :=
      (db.storydetails.filter (fun s => orphans.contains s.ownerID)).map (fun s => s.id)
    let details1 := db.storydetails.filter (fun s => !(orphans.contains s.ownerID))
    let content1 := db.storycontent.filter (fun c => !(orphanedStoryIDs.contains c.storyID))
    let details2 := details1.map (fun s =>
      if s.collaborators.any (fun x => orphans.contains x) then
        { s with collaborators := s.collaborators.filter (fun x => !(orphans.contains x)) }
      else s)
    { storydetails := details2, storycontent := content1 }

/-- A decoded bearer token.  sigValid abstracts the outcome of the
cryptographic verification against the shared secret; expired the
expiry-claim check; subject is the raw subject claim; idClaim is the
purpose claim, none when the claim is absent from the token. -/
structure Token where
  sigValid : Bool
  expired  : Bool
  subject  : String
  idClaim  : Option String
deriving Repr, DecidableEq

/-- The distinct rejection outcomes of token validation. -/
inductive TokenError where
  | parseError
  | wrongTokenType
  | invalidSubject
deriving Repr, DecidableEq

/-- Whether a character is a hexadecimal digit. -/
def isHexDigit (c : Char) : Bool :=
  (('0' ≤ c) && (c ≤ '9')) || (('a' ≤ c) && (c ≤ 'f')) || (('A' ≤ c) && (c ≤ 'F'))

/-- Numeric value of a hexadecimal digit. -/
def hexDigitVal (c : Char) : Nat :=
  if ('0' ≤ c) && (c ≤ '9') then c.toNat - '0'.toNat
  else if ('a' ≤ c) && (c ≤ 'f') then c.toNat - 'a'.toNat + 10
  else c.toNat - 'A'.toNat + 10

/-- primitive.ObjectIDFromHex: a valid ObjectID literal is exactly 24
hexadecimal characters. -/
def objectIDFromHex (s : String) : Option Nat :=
  if s.length == 24 && s.toList.all isHexDigit then
    some (s.toList.foldl (fun acc c => acc * 16 + hexDigitVal c) NilObjectID)
  else
    none

/-- The value the jwt library decodes for the registered ID claim: the
empty string when the claim is absent. -/
def decodedIDClaim (t : Token) : String :=
  t.idClaim.getD ""

/-- The ParseTokenFunc of the JWT middleware: signature and expiry
checks (both surfaced as parse errors by the jwt library), then the
token-type check on the ID claim against the access sentinel, then the
subject parse. -/
def parseTokenFunc (t : Token) : Except TokenError Nat :=
  if !t.sigValid then .error .parseError
  else if t.expired then .error .parseError
  else if decodedIDClaim t != "access" then .error .wrongTokenType
  else
    match objectIDFromHex t.subject with
    | none => .error .invalidSubject
    | some userID => .ok userID

/-- The content document GetStoryContent yields for a story whose
metadata exists: the stored document, or the empty-body default. -/
def contentDoc (db : DB) (id : Nat) : StoryContent :=
  match findContent db id with
  | some c => c
  | none => { id := NilObjectID, storyID := id, content := "" }

/-- The body text of the source story as the fork engine observes it:
empty when no content document exists. -/
def sourceBody (db : DB) (src : Nat) : String :=
  (contentDoc db src).content

/-- How many stories of the database are forks for a given
(source, forker) pair. -/
def forkCount (db : DB) (src forker : Nat) : Nat :=
  db.storydetails.countP (fun s => s.forkedFrom == some src && s.ownerID == forker)

section Fixtures

/-- A story owned by principal 10 with collaborator 11. -/
def storyA : StoryDetails :=
  { id := 1, title := "T", genre := "G", description := "D", ownerID := 10,
    collaborators := [11], createdAt := 0, updatedAt := 0, forkedFrom := none }

/-- A database holding storyA and its content document. -/
def dbA : DB :=
  { storydetails := [storyA], storycontent := [{ id := 5, storyID := 1, content := "Hello" }] }

/-- A database holding storyA and no content document. -/
def dbANoContent : DB := { storydetails := [storyA], storycontent := [] }

/-- A token with valid signature, unexpired, valid hex subject, and no
purpose claim at all. -/
def tokenNoID : Token :=
  { sigValid := true, expired := false, subject := "000000000000000000000010", idClaim := none }

/-- A well-formed access token. -/
def tokenAccess : Token :=
  { sigValid := true, expired := false, subject := "000000000000000000000010",
    idClaim := some "access" }

end Fixtures

section Lemmas

/-- A found story carries the id it was looked up by. -/
theorem findStory_id {db : DB} {src : Nat} {story : StoryDetails}
    (h : findStory db src = some story) : story.id = src := by
  have hp := List.find?_some h
  simpa using hp

/-- Finding in the left part wins over an appended tail. -/
theorem find?_append_some {p : α → Bool} {l₁ l₂ : List α} {a : α}
    (h : l₁.find? p = some a) : (l₁ ++ l₂).find? p = some a := by
  rw [List.find?_append, h]
  rfl

/-- GetStoryContent on a story whose metadata exists yields the
contentDoc value. -/
theorem getStoryContent_eq_contentDoc {db : DB} {id : Nat} {story : StoryDetails}
    (h : findStory db id = some story) :
    GetStoryContent db id = .ok (contentDoc db id) := by
  unfold GetStoryContent contentDoc
  rw [h]
  cases findContent db id <;> rfl

/-- Removing the only match leaves no match. -/
theorem find?_deleteOne_eq_none {p : α → Bool} :
    ∀ {l : List α}, l.countP p ≤ 1 → (deleteOne p l).find? p = none := by
  intro l
  induction l with
  | nil => intro _; rfl
  | cons x xs ih =>
    intro h
    by_cases hx : p x = true
    · have hcount : xs.countP p = 0 := by
        have h2 := h
        rw [List.countP_cons_of_pos _ _ hx] at h2
        omega
      have hnone : xs.find? p = none :=
        List.find?_eq_none.mpr (by
          intro a ha
          have := List.countP_eq_zero.mp hcount a ha
          simpa using this)
      simp [deleteOne, hx, hnone]
    · have hx' : p x = false := by simpa using hx
      have hcount : xs.countP p ≤ 1 := by
        have h2 := h
        rw [List.countP_cons_of_neg _ _ (by simpa using hx)] at h2
        omega
      simp [deleteOne, hx', List.find?_cons, ih hcount]

end Lemmas

/-- Claim C5: GetStoryContent fails with the not-found error exactly
when no metadata document with that id exists; when the metadata exists
the call succeeds with a content value whose story id is id, and when
the content document is absent the body of that value is empty. -/
theorem getStoryContent_notFound_iff_and_empty_default (db : DB) (id : Nat) :
    (GetStoryContent db id = .error .storyNotFound ↔ findStory db id = none) ∧
    (∀ story, findStory db id = some story →
      ∃ c, GetStoryContent db id = .ok c ∧ c.storyID = id) ∧
    (∀ story, findStory db id = some story → findContent db id = none →
      GetStoryContent db id = .ok { id := NilObjectID, storyID := id, content := "" }) := by
  refine ⟨?_, ?_, ?_⟩
  · unfold GetStoryContent
    cases h : findStory db id with
    | none => simp
    | some s =>
      cases h2 : findContent db id <;> simp
  · intro story h1
    rw [getStoryContent_eq_contentDoc h1]
    refine ⟨contentDoc db id, rfl, ?_⟩
    unfold contentDoc
    cases h2 : findContent db id with
    | none => rfl
    | some c =>
      have := List.find?_some h2
      simpa using this
  · intro story h1 h2
    unfold GetStoryContent
    rw [h1, h2]

/-- Witness for C5 at a concrete database with metadata but no content
document. -/
theorem getStoryContent_notFound_iff_and_empty_default_witness :
    GetStoryContent dbANoContent 1 = .ok { id := NilObjectID, storyID := 1, content := "" } :=
  (getStoryContent_notFound_iff_and_empty_default dbANoContent 1).2.2 storyA (by rfl) (by rfl)

/-- Claim C7: a fork request by the owner of an existing story is
rejected with the self-fork error and leaves the database unchanged, so
no metadata or content record is created. -/
theorem forkStory_selfFork_rejected (db : DB) (forker src now nid ncid : Nat) (f : Bool)
    (story : StoryDetails) (hs : findStory db src = some story)
    (hself : forker = story.ownerID) :
    ForkStoryHandler db forker src now nid ncid f
      = (.badRequest "Cannot fork your own story", db) := by
  unfold ForkStoryHandler GetStoryDetails
  rw [hs]
  simp [hself]

/-- Witness for C7: owner 10 forking its own story. -/
theorem forkStory_selfFork_rejected_witness :
    ForkStoryHandler dbA 10 1 7 2 3 false = (.badRequest "Cannot fork your own story", dbA) :=
  forkStory_selfFork_rejected dbA 10 1 7 2 3 false storyA (by rfl) (by rfl)

/-- Counterexample to claim C9 as stated: a token that passes the
signature, expiry and subject checks but carries no purpose claim at
all is rejected with the wrong-token-type error, not accepted. -/
theorem parseTokenFunc_absent_idClaim_rejected :
    (objectIDFromHex tokenNoID.subject).isSome = true ∧
    parseTokenFunc tokenNoID = .error .wrongTokenType := by
  constructor
  · decide
  · rfl

/-- Claim C9 (amended): for a token passing the signature and expiry
checks and with a parseable subject, validation fails with the
wrong-token-type error exactly when the decoded purpose claim (the
empty string when the claim is absent) differs from the access
sentinel; when that decoded claim equals the sentinel, validation
succeeds with the principal parsed from the subject. -/
theorem parseTokenFunc_tokenType_check (t : Token) (uid : Nat)
    (hsig : t.sigValid = true) (hexp : t.expired = false)
    (hsub : objectIDFromHex t.subject = some uid) :
    (parseTokenFunc t = .error .wrongTokenType ↔ decodedIDClaim t ≠ "access") ∧
    (decodedIDClaim t = "access" → parseTokenFunc t = .ok uid) := by
  unfold parseTokenFunc
  rw [hsig, hexp, hsub]
  by_cases h : decodedIDClaim t = "access"
  · simp [h]
  · simp [h]

/-- Witness for C9 (amended) at a concrete access token. -/
theorem parseTokenFunc_tokenType_check_witness :
    parseTokenFunc tokenAccess = .ok 16 :=
  (parseTokenFunc_tokenType_check tokenAccess 16 (by rfl) (by rfl) (by decide)).2 (by rfl)

/-- No metadata document matches the id exactly when the any-filter on
the id is false. -/
theorem findStory_eq_none_iff (db : DB) (id : Nat) :
    findStory db id = none ↔ db.storydetails.any (fun s => s.id == id) = false := by
  rw [findStory, List.find?_eq_none, List.any_eq_false]

/-- Claim C1: with the target story present, the edit handler succeeds
exactly when the principal is the owner or an exact-match member of the
collaborator sequence (and is rejected as unauthorized otherwise), and
the delete handler succeeds exactly when the principal is the owner
(and is rejected as unauthorized otherwise). -/
theorem edit_delete_authorization (db : DB) (userId storyId : Nat) (body : String) (now : Nat)
    (story : StoryDetails) (hs : findStory db storyId = some story) :
    ((EditStoryHandler db userId storyId body now).1 = .okMessage ↔
      (userId = story.ownerID ∨ userId ∈ story.collaborators)) ∧
    ((EditStoryHandler db userId storyId body now).1 = .unauthorized ↔
      ¬(userId = story.ownerID ∨ userId ∈ story.collaborators)) ∧
    ((DeleteStoryHandler db userId storyId).1 = .okMessage ↔ userId = story.ownerID) ∧
    ((DeleteStoryHandler db userId storyId).1 = .unauthorized ↔ userId ≠ story.ownerID) := by
  have hs' : db.storydetails.find? (fun s => s.id == storyId) = some story := hs
  have hp := List.find?_some hs'
  have hmem := List.mem_of_find?_eq_some hs'
  have hany : db.storydetails.any (fun s => s.id == storyId) = true :=
    List.any_eq_true.mpr ⟨story, hmem, hp⟩
  unfold EditStoryHandler DeleteStoryHandler GetStoryDetails DeleteStory EditStoryContent
  rw [hs]
  by_cases ho : userId = story.ownerID
  · simp [ho, hany]
  · by_cases hm : userId ∈ story.collaborators
    · simp [ho, hm, hany]
    · simp [ho, hm, hany]

/-- Witness for C1: collaborator 11 may edit but not delete. -/
theorem edit_delete_authorization_witness :
    (EditStoryHandler dbA 11 1 "B" 9).1 = .okMessage ∧
    (DeleteStoryHandler dbA 11 1).1 = .unauthorized := by
  have h := edit_delete_authorization dbA 11 1 "B" 9 storyA (by rfl)
  exact ⟨h.1.mpr (Or.inr (by decide)), h.2.2.2.mpr (by decide)⟩

/-- Claim C6: DeleteStory fails with the not-found error exactly when
no metadata document matched (and then deletes nothing, as the returned
state is untouched); when the metadata exists the call succeeds and
afterwards neither a metadata nor a content document for the id
remains.  The uniqueness bounds express the one-to-one shape of the
collections (Mongo assigns unique ids). -/
theorem deleteStory_spec (db : DB) (id : Nat)
    (hD : db.storydetails.countP (fun s => s.id == id) ≤ 1)
    (hC : db.storycontent.countP (fun c => c.storyID == id) ≤ 1) :
    (DeleteStory db id = .error .storyNotFound ↔ findStory db id = none) ∧
    (∀ story, findStory db id = some story →
      ∃ db1, DeleteStory db id = .ok db1 ∧
        findStory db1 id = none ∧ findContent db1 id = none) := by
  constructor
  · unfold DeleteStory
    by_cases h : db.storydetails.any (fun s => s.id == id) = true
    · simp [h, findStory_eq_none_iff]
    · have h' : db.storydetails.any (fun s => s.id == id) = false := by simpa using h
      simp [h', findStory_eq_none_iff]
  · intro story hstory
    have hstory' : db.storydetails.find? (fun s => s.id == id) = some story := hstory
    have hp := List.find?_some hstory'
    have hmem := List.mem_of_find?_eq_some hstory'
    have hany : db.storydetails.any (fun s => s.id == id) = true :=
      List.any_eq_true.mpr ⟨story, hmem, hp⟩
    refine ⟨{ storydetails := deleteOne (fun s => s.id == id) db.storydetails,
              storycontent := deleteOne (fun c => c.storyID == id) db.storycontent }, ?_, ?_, ?_⟩
    · unfold DeleteStory
      simp [hany]
    · show (deleteOne (fun s => s.id == id) db.storydetails).find? (fun s => s.id == id) = none
      exact find?_deleteOne_eq_none hD
    · show (deleteOne (fun c => c.storyID == id) db.storycontent).find? (fun c => c.storyID == id) = none
      exact find?_deleteOne_eq_none hC

/-- Witness for C6: deleting story 1 of dbA removes both documents. -/
theorem deleteStory_spec_witness :
    ∃ db1, DeleteStory dbA 1 = .ok db1 ∧ findStory db1 1 = none ∧ findContent db1 1 = none :=
  (deleteStory_spec dbA 1 (by decide) (by decide)).2 storyA (by rfl)

/-- The content lookup only depends on the storycontent collection. -/
theorem contentDoc_ext {db db' : DB} (h : db'.storycontent = db.storycontent) (id : Nat) :
    contentDoc db' id = contentDoc db id := by
  unfold contentDoc findContent
  rw [h]

/-- GetStoryContent on the source still yields the source contentDoc
after new metadata has been appended. -/
theorem getStoryContent_append {db : DB} {d : StoryDetails} {id : Nat} {story : StoryDetails}
    (hs : findStory db id = some story) :
    GetStoryContent { db with storydetails := db.storydetails ++ [d] } id
      = .ok (contentDoc db id) := by
  have hs' : findStory { db with storydetails := db.storydetails ++ [d] } id = some story := by
    unfold findStory at hs ⊢
    exact find?_append_some hs
  rw [getStoryContent_eq_contentDoc hs']
  rfl

/-- The metadata document ForkStory inserts for a successful or
partially failing fork. -/
def forkedDoc (story : StoryDetails) (forker now nid : Nat) : StoryDetails :=
  { id := nid, title := story.title, genre := story.genre,
    description := story.description, ownerID := forker,
    collaborators := [], createdAt := now, updatedAt := now,
    forkedFrom := some story.id }

/-- Unfolding of ForkStory on the no-duplicate path. -/
theorem forkStory_run {db : DB} {src forker : Nat} (now nid ncid : Nat) (f : Bool)
    {story : StoryDetails}
    (hs : findStory db src = some story)
    (hdup : db.storydetails.find?
      (fun s => s.forkedFrom == some src && s.ownerID == forker) = none) :
    ForkStory db src forker now nid ncid f =
      (let db1 : DB := { db with storydetails := db.storydetails ++ [forkedDoc story forker now nid] }
       if sourceBody db src ≠ "" then
         if f then ((nid, some .errorInsertingContent), db1)
         else ((nid, none),
           { db1 with storycontent := db1.storycontent ++
               [{ id := ncid, storyID := nid, content := sourceBody db src }] })
       else ((nid, none), db1)) := by
  unfold ForkStory GetStoryDetails
  rw [hs, hdup]
  simp only [CreateStory]
  rw [getStoryContent_append hs]
  rfl

/-- Counterexample to claim C8 as stated: in a state where the fork of
story 1 by principal 20 creates its metadata but the content-clone
insert fails, the handler answers with the internal-server-error
outcome, not with a success outcome carrying the new identifier. -/
theorem forkStory_contentCloneFailure_not_success :
    (ForkStoryHandler dbA 20 1 7 2 3 true).1 = .internalError ∧
    (ForkStoryHandler dbA 20 1 7 2 3 true).1 ≠ .created 2 := by
  constructor
  · rfl
  · decide

/-- Claim C8 (amended): when the content-clone insert fails after the
metadata of the fork was created, the metadata persists (the database
keeps the content-less fork) and ForkStory returns the new identifier
together with the insert error, but the handler surfaces the failure to
the caller as an internal server error rather than a success. -/
theorem forkStory_contentCloneFailure_partial_state (db : DB) (src forker now nid ncid : Nat)
    (story : StoryDetails)
    (hs : findStory db src = some story)
    (hdup : db.storydetails.find?
      (fun s => s.forkedFrom == some src && s.ownerID == forker) = none)
    (hself : forker ≠ story.ownerID)
    (hbody : sourceBody db src ≠ "") :
    ForkStory db src forker now nid ncid true
      = ((nid, some .errorInsertingContent),
         { db with storydetails := db.storydetails ++ [forkedDoc story forker now nid] }) ∧
    ForkStoryHandler db forker src now nid ncid true
      = (.internalError,
         { db with storydetails := db.storydetails ++ [forkedDoc story forker now nid] }) := by
  have hrun := forkStory_run now nid ncid true hs hdup
  rw [if_pos hbody, if_pos (Eq.refl true)] at hrun
  refine ⟨hrun, ?_⟩
  have hgd : GetStoryDetails db src = .ok story := by
    unfold GetStoryDetails
    rw [hs]
  have hne : (forker == story.ownerID) = false := by simpa using hself
  unfold ForkStoryHandler
  rw [hgd]
  simp only [hne, Bool.false_eq_true, if_false, hrun]

/-- Witness for C8 (amended) at the concrete database dbA. -/
theorem forkStory_contentCloneFailure_partial_state_witness :
    ForkStoryHandler dbA 20 1 7 2 3 true
      = (.internalError,
         { dbA with storydetails := dbA.storydetails ++ [forkedDoc storyA 20 7 2] }) :=
  (forkStory_contentCloneFailure_partial_state dbA 1 20 7 2 3 storyA (by rfl) (by rfl)
    (by decide) (by decide)).2

/-- The fork engine never raises the per-pair fork count above one:
every path of ForkStory preserves the bound. -/
theorem forkCount_ForkStory (db : DB) (sid u now nid ncid : Nat) (f : Bool) (s2 f2 : Nat)
    (h : forkCount db s2 f2 ≤ 1) :
    forkCount (ForkStory db sid u now nid ncid f).2 s2 f2 ≤ 1 := by
  cases hfs : findStory db sid with
  | none =>
    unfold ForkStory GetStoryDetails
    simp only [hfs]
    exact h
  | some story =>
    cases hdup : db.storydetails.find?
        (fun s => s.forkedFrom == some sid && s.ownerID == u) with
    | some d =>
      unfold ForkStory GetStoryDetails
      simp only [hfs, hdup]
      exact h
    | none =>
      have hid : story.id = sid := findStory_id hfs
      rw [forkStory_run now nid ncid f hfs hdup]
      have hsd : ∀ (db' : DB),
          db'.storydetails = db.storydetails ++ [forkedDoc story u now nid] →
          forkCount db' s2 f2 ≤ 1 := by
        intro db' hdetails
        unfold forkCount
        rw [hdetails, List.countP_append]
        by_cases hpair : ((forkedDoc story u now nid).forkedFrom == some s2 &&
            (forkedDoc story u now nid).ownerID == f2) = true
        · have hms : s2 = sid := by
            have := (Bool.and_eq_true _ _).mp hpair
            have h1 := this.1
            simp [forkedDoc, hid] at h1
            omega
          have hmf : f2 = u := by
            have := (Bool.and_eq_true _ _).mp hpair
            have h2 := this.2
            simp [forkedDoc] at h2
            omega
          have hzero : db.storydetails.countP
              (fun s => s.forkedFrom == some s2 && s.ownerID == f2) = 0 := by
            apply List.countP_eq_zero.mpr
            intro a ha
            have := List.find?_eq_none.mp hdup a ha
            rw [hms, hmf]
            exact this
          rw [hzero]
          simp [hpair, List.countP_cons]
        · have hpair' := eq_false_of_ne_true hpair
          have hone : List.countP (fun s => s.forkedFrom == some s2 && s.ownerID == f2)
              [forkedDoc story u now nid] = 0 := by
            simp [List.countP_cons, hpair']
          rw [hone]
          simpa [forkCount] using h
      by_cases hb : sourceBody db sid = ""
      · rw [if_neg (not_not_intro hb)]
        exact hsd _ rfl
      · rw [if_pos hb]
        cases f
        · simp only [Bool.false_eq_true, if_false]
          exact hsd _ rfl
        · simp only [if_true]
          exact hsd _ rfl

/-- The fork handler never raises the per-pair fork count above one. -/
theorem forkCount_ForkStoryHandler (db2 : DB) (u sid n2 i2 c2 : Nat) (fl : Bool) (s2 f2 : Nat)
    (h : forkCount db2 s2 f2 ≤ 1) :
    forkCount (ForkStoryHandler db2 u sid n2 i2 c2 fl).2 s2 f2 ≤ 1 := by
  unfold ForkStoryHandler
  cases hfs : GetStoryDetails db2 sid with
  | error e =>
    simp only [hfs]
    exact h
  | ok story2 =>
    simp only [hfs]
    by_cases ho : (u == story2.ownerID) = true
    · simp only [ho, if_true]
      exact h
    · have ho' : (u == story2.ownerID) = false := eq_false_of_ne_true ho
      simp only [ho', Bool.false_eq_true, if_false]
      have hkey := forkCount_ForkStory db2 sid u n2 i2 c2 fl s2 f2 h
      rcases hr : ForkStory db2 sid u n2 i2 c2 fl with ⟨⟨rid, rerr⟩, rdb⟩
      rw [hr] at hkey
      cases rerr with
      | none =>
        by_cases hz : (rid == NilObjectID) = true
        · simp only [hr, hz, if_true]
          exact hkey
        · simp only [hr, eq_false_of_ne_true hz, Bool.false_eq_true, if_false]
          exact hkey
      | some e =>
        cases e <;> simpa only [hr] using hkey

/-- Claim C2: when a fork for the (source, forker) pair already exists,
a fork attempt by that forker fails with the duplicate-fork error, the
handler answers Conflict, and the database is returned unchanged (no
metadata or content inserted); moreover every fork operation preserves
the bound of at most one fork per (source, forker) pair. -/
theorem forkStory_duplicate_conflict (db : DB) (src forker now nid ncid : Nat) (f : Bool)
    (story dup : StoryDetails)
    (hs : findStory db src = some story)
    (hdupMem : dup ∈ db.storydetails)
    (hdf : dup.forkedFrom = some src) (hdo : dup.ownerID = forker)
    (hself : forker ≠ story.ownerID) :
    ForkStory db src forker now nid ncid f = ((NilObjectID, some .alreadyForked), db) ∧
    ForkStoryHandler db forker src now nid ncid f = (.conflict, db) ∧
    (∀ (db2 : DB) (u sid n2 i2 c2 s2 f2 : Nat) (fl : Bool),
      forkCount db2 s2 f2 ≤ 1 →
      forkCount (ForkStoryHandler db2 u sid n2 i2 c2 fl).2 s2 f2 ≤ 1) := by
  have hsome : (db.storydetails.find?
      (fun s => s.forkedFrom == some src && s.ownerID == forker)).isSome := by
    apply List.find?_isSome.mpr
    refine ⟨dup, hdupMem, ?_⟩
    simp [hdf, hdo]
  obtain ⟨d, hd⟩ := Option.isSome_iff_exists.mp hsome
  have hF : ForkStory db src forker now nid ncid f
      = ((NilObjectID, some .alreadyForked), db) := by
    unfold ForkStory GetStoryDetails
    simp only [hs, hd]
  refine ⟨hF, ?_, ?_⟩
  · have hgd : GetStoryDetails db src = .ok story := by
      unfold GetStoryDetails
      rw [hs]
    have hne : (forker == story.ownerID) = false := by simpa using hself
    unfold ForkStoryHandler
    rw [hgd]
    simp only [hne, Bool.false_eq_true, if_false, hF]
  · intro db2 u sid n2 i2 c2 s2 f2 fl hb
    exact forkCount_ForkStoryHandler db2 u sid n2 i2 c2 fl s2 f2 hb

/-- The state after the successful fork of story 1 by principal 20. -/
def dbAForked : DB :=
  { storydetails := [storyA, forkedDoc storyA 20 7 2],
    storycontent := [{ id := 5, storyID := 1, content := "Hello" },
                     { id := 3, storyID := 2, content := "Hello" }] }

/-- Witness for C2: the second fork of story 1 by principal 20 yields
Conflict and leaves the database unchanged. -/
theorem forkStory_duplicate_conflict_witness :
    ForkStoryHandler dbAForked 20 1 8 4 6 false = (.conflict, dbAForked) :=
  (forkStory_duplicate_conflict dbAForked 1 20 8 4 6 false storyA (forkedDoc storyA 20 7 2)
    (by rfl) (by decide) (by decide) (by decide) (by decide)).2.1

/-- Claim C3: a successful fork of an existing source story by a
distinct forker appends exactly one metadata document copying title,
genre and description from the source, owned by the forker, with an
empty collaborator set, forked-from pointing at the source and both
timestamps fresh; and a content document with the same body is created
for the new story exactly when the source body is non-empty. -/
theorem forkStory_success (db : DB) (src forker now nid ncid : Nat) (story : StoryDetails)
    (hs : findStory db src = some story)
    (hdup : db.storydetails.find?
      (fun s => s.forkedFrom == some src && s.ownerID == forker) = none)
    (hself : forker ≠ story.ownerID)
    (hnid : nid ≠ NilObjectID)
    (hfresh : ∀ c ∈ db.storycontent, c.storyID ≠ nid) :
    ForkStoryHandler db forker src now nid ncid false
      = (.created nid,
         { storydetails := db.storydetails ++
             [{ id := nid, title := story.title, genre := story.genre,
                description := story.description, ownerID := forker,
                collaborators := [], createdAt := now, updatedAt := now,
                forkedFrom := some src }],
           storycontent := db.storycontent ++
             (if sourceBody db src = "" then []
              else [{ id := ncid, storyID := nid, content := sourceBody db src }]) }) ∧
    (sourceBody db src ≠ "" →
      findContent (ForkStoryHandler db forker src now nid ncid false).2 nid
        = some { id := ncid, storyID := nid, content := sourceBody db src }) ∧
    (sourceBody db src = "" →
      findContent (ForkStoryHandler db forker src now nid ncid false).2 nid = none) := by
  have hid : story.id = src := findStory_id hs
  have hdoc : forkedDoc story forker now nid
      = { id := nid, title := story.title, genre := story.genre,
          description := story.description, ownerID := forker,
          collaborators := [], createdAt := now, updatedAt := now,
          forkedFrom := some src } := by
    unfold forkedDoc
    rw [hid]
  have hrun := forkStory_run now nid ncid false hs hdup
  have hgd : GetStoryDetails db src = .ok story := by
    unfold GetStoryDetails
    rw [hs]
  have hne : (forker == story.ownerID) = false := by simpa using hself
  have hnz : (nid == NilObjectID) = false := by simpa using hnid
  have hnone : db.storycontent.find? (fun c => c.storyID == nid) = none := by
    apply List.find?_eq_none.mpr
    intro c hc
    simpa using hfresh c hc
  by_cases hb : sourceBody db src = ""
  · rw [if_neg (not_not_intro hb)] at hrun
    have hH : ForkStoryHandler db forker src now nid ncid false
        = (.created nid,
           { db with storydetails := db.storydetails ++ [forkedDoc story forker now nid] }) := by
      unfold ForkStoryHandler
      rw [hgd]
      simp only [hne, Bool.false_eq_true, if_false, hrun, hnz]
    refine ⟨?_, ?_, ?_⟩
    · rw [hH, hdoc, if_pos hb, List.append_nil]
    · intro hcontra
      exact absurd hb hcontra
    · intro _
      rw [hH]
      exact hnone
  · rw [if_pos hb] at hrun
    simp only [Bool.false_eq_true, if_false] at hrun
    have hH : ForkStoryHandler db forker src now nid ncid false
        = (.created nid,
           { storydetails := db.storydetails ++ [forkedDoc story forker now nid],
             storycontent := db.storycontent ++
               [{ id := ncid, storyID := nid, content := sourceBody db src }] }) := by
      unfold ForkStoryHandler
      rw [hgd]
      simp only [hne, Bool.false_eq_true, if_false, hrun, hnz]
    refine ⟨?_, ?_, ?_⟩
    · rw [hH, hdoc, if_neg hb]
    · intro _
      rw [hH]
      show (db.storycontent ++
          [({ id := ncid, storyID := nid, content := sourceBody db src } : StoryContent)]).find?
          (fun c => c.storyID == nid)
        = some { id := ncid, storyID := nid, content := sourceBody db src }
      rw [List.find?_append, hnone]
      simp [List.find?_cons]
    · intro hcontra
      exact absurd hcontra hb

/-- Witness for C3: principal 20 forks story 1 with body Hello. -/
theorem forkStory_success_witness :
    ForkStoryHandler dbA 20 1 7 2 3 false
      = (.created 2,
         { storydetails := dbA.storydetails ++
             [{ id := 2, title := storyA.title, genre := storyA.genre,
                description := storyA.description, ownerID := 20,
                collaborators := [], createdAt := 7, updatedAt := 7,
                forkedFrom := some 1 }],
           storycontent := dbA.storycontent ++
             (if sourceBody dbA 1 = "" then []
              else [{ id := 3, storyID := 2, content := sourceBody dbA 1 }]) }) :=
  (forkStory_success dbA 1 20 7 2 3 storyA (by rfl) (by rfl) (by decide) (by decide)
    (by decide)).1

/-- A list does not contain an element that is not a member. -/
theorem contains_eq_false_of_not_mem {l : List Nat} {a : Nat} (h : a ∉ l) :
    l.contains a = false := by
  by_contra hc
  have hc' : l.contains a = true := by simpa using hc
  exact h (by simpa using hc')

/-- Claim C4: an owner whose identity lookup did not return a
definitive HTTP 404 is never put into the orphan set of a
reconciliation cycle, the cycle deletes none of the metadata or content
of that owner, and the owner is not pulled from the collaborator array
of any story that survives the cycle. -/
theorem cleanup_skips_inconclusive (db : DB) (lookup : Nat → LookupResult) (owner : Nat)
    (h404 : is404 (lookup owner) = false)
    (hids : (db.storydetails.map (fun s => s.id)).Nodup) :
    owner ∉ orphanedOwners db lookup ∧
    (∀ s ∈ db.storydetails, s.ownerID = owner →
      ∃ s' ∈ (CleanupOrphanedStories db lookup).storydetails,
        s'.id = s.id ∧ s'.ownerID = owner) ∧
    (∀ c ∈ db.storycontent, ∀ s ∈ db.storydetails, s.id = c.storyID → s.ownerID = owner →
      c ∈ (CleanupOrphanedStories db lookup).storycontent) ∧
    (∀ s ∈ db.storydetails, is404 (lookup s.ownerID) = false → owner ∈ s.collaborators →
      ∃ s' ∈ (CleanupOrphanedStories db lookup).storydetails,
        s'.id = s.id ∧ owner ∈ s'.collaborators) := by
  have hnotmem : owner ∉ orphanedOwners db lookup := by
    intro hmem
    rw [orphanedOwners, List.mem_filter, h404] at hmem
    simp at hmem
  have hnotmem404 : ∀ o, is404 (lookup o) = false → o ∉ orphanedOwners db lookup := by
    intro o ho hmem
    rw [orphanedOwners, List.mem_filter, ho] at hmem
    simp at hmem
  have hcontOwner : (orphanedOwners db lookup).contains owner = false :=
    contains_eq_false_of_not_mem hnotmem
  by_cases hE : (orphanedOwners db lookup).isEmpty = true
  · have hclean : CleanupOrphanedStories db lookup = db := by
      unfold CleanupOrphanedStories
      simp only [hE, if_true]
    refine ⟨hnotmem, ?_, ?_, ?_⟩
    · intro s hs hsown
      exact ⟨s, by rw [hclean]; exact hs, rfl, hsown⟩
    · intro c hc s hs hsid hsown
      rw [hclean]
      exact hc
    · intro s hs hs404 howner
      exact ⟨s, by rw [hclean]; exact hs, rfl, howner⟩
  · have hE' : (orphanedOwners db lookup).isEmpty = false := eq_false_of_ne_true hE
    have hclean : CleanupOrphanedStories db lookup
        = { storydetails :=
              (db.storydetails.filter
                (fun s => !((orphanedOwners db lookup).contains s.ownerID))).map
                (fun s =>
                  if s.collaborators.any (fun x => (orphanedOwners db lookup).contains x) then
                    { s with collaborators :=
                        s.collaborators.filter (fun x => !((orphanedOwners db lookup).contains x)) }
                  else s),
            storycontent :=
              db.storycontent.filter
                (fun c => !((((db.storydetails.filter
                  (fun s => (orphanedOwners db lookup).contains s.ownerID)).map
                    (fun s => s.id))).contains c.storyID)) } := by
      unfold CleanupOrphanedStories
      simp only [hE', Bool.false_eq_true, if_false]
    refine ⟨hnotmem, ?_, ?_, ?_⟩
    · intro s hs hsown
      have hcont : (orphanedOwners db lookup).contains s.ownerID = false := by
        rw [hsown]
        exact hcontOwner
      have hs1 : s ∈ db.storydetails.filter
          (fun t => !((orphanedOwners db lookup).contains t.ownerID)) :=
        List.mem_filter.mpr ⟨hs, by rw [hcont]; rfl⟩
      rw [hclean]
      by_cases hany : s.collaborators.any
          (fun x => (orphanedOwners db lookup).contains x) = true
      · refine ⟨{ s with collaborators :=
            s.collaborators.filter (fun x => !((orphanedOwners db lookup).contains x)) },
          ?_, rfl, hsown⟩
        exact List.mem_map.mpr ⟨s, hs1, by rw [if_pos hany]⟩
      · refine ⟨s, ?_, rfl, hsown⟩
        exact List.mem_map.mpr ⟨s, hs1, by rw [if_neg hany]⟩
    · intro c hc s hs hsid hsown
      rw [hclean]
      refine List.mem_filter.mpr ⟨hc, ?_⟩
      have hno : c.storyID ∉ (db.storydetails.filter
          (fun t => (orphanedOwners db lookup).contains t.ownerID)).map (fun t => t.id) := by
        intro hmem
        obtain ⟨t, htf, htid⟩ := List.mem_map.mp hmem
        obtain ⟨htmem, htorph⟩ := List.mem_filter.mp htf
        have hts : t = s := by
          apply List.inj_on_of_nodup_map hids htmem hs
          rw [htid, ← hsid]
        rw [hts, hsown] at htorph
        rw [hcontOwner] at htorph
        exact Bool.false_ne_true htorph
      rw [contains_eq_false_of_not_mem hno]
      rfl
    · intro s hs hs404 howner
      have hcont : (orphanedOwners db lookup).contains s.ownerID = false :=
        contains_eq_false_of_not_mem (hnotmem404 s.ownerID hs404)
      have hs1 : s ∈ db.storydetails.filter
          (fun t => !((orphanedOwners db lookup).contains t.ownerID)) :=
        List.mem_filter.mpr ⟨hs, by rw [hcont]; rfl⟩
      rw [hclean]
      by_cases hany : s.collaborators.any
          (fun x => (orphanedOwners db lookup).contains x) = true
      · refine ⟨{ s with collaborators :=
            s.collaborators.filter (fun x => !((orphanedOwners db lookup).contains x)) },
          ?_, rfl, ?_⟩
        · exact List.mem_map.mpr ⟨s, hs1, by rw [if_pos hany]⟩
        · exact List.mem_filter.mpr ⟨howner, by rw [hcontOwner]; rfl⟩
      · refine ⟨s, ?_, rfl, howner⟩
        exact List.mem_map.mpr ⟨s, hs1, by rw [if_neg hany]⟩

/-- Witness for C4: owner 12 of story 2 got an inconclusive 503, so
story 2, its content and the collaborator entries on it survive the
cycle in which owner 10 is orphaned. -/
theorem cleanup_skips_inconclusive_witness :
    ∃ s' ∈ (CleanupOrphanedStories
        { storydetails := [storyA,
            { id := 2, title := "U", genre := "G", description := "D", ownerID := 12,
              collaborators := [11], createdAt := 0, updatedAt := 0, forkedFrom := none }],
          storycontent := [{ id := 5, storyID := 1, content := "Hello" },
            { id := 6, storyID := 2, content := "W" }] }
        (fun o => if o == 10 then .status 404
                  else if o == 12 then .status 503 else .status 200)).storydetails,
      s'.id = 2 ∧ s'.ownerID = 12 :=
  (cleanup_skips_inconclusive
    { storydetails := [storyA,
        { id := 2, title := "U", genre := "G", description := "D", ownerID := 12,
          collaborators := [11], createdAt := 0, updatedAt := 0, forkedFrom := none }],
      storycontent := [{ id := 5, storyID := 1, content := "Hello" },
        { id := 6, storyID := 2, content := "W" }] }
    (fun o => if o == 10 then .status 404
              else if o == 12 then .status 503 else .status 200)
    12 (by decide) (by decide)).2.1
    { id := 2, title := "U", genre := "G", description := "D", ownerID := 12,
      collaborators := [11], createdAt := 0, updatedAt := 0, forkedFrom := none }
    (by decide) (by decide)

end StoryHub
